import Mathlib

/-!
# Bounded-concurrency load loop (`src/main.go`)

`Benchmark.Run` starts goroutines, so it is embedded as a labelled transition
system: one `Event` is one atomic statement of the dispatching goroutine, one
statement of a spawned task, the passage of time, or the firing of the run
deadline.  An execution of `Run` is a list of events; a statement about every
list of events is a statement about every schedule, every timing and every
executor behaviour.

Counters (`reqCount`, the wait group, the history counters) are unbounded
numbers: `reqCount` is an `int64` that grows by one per finished operation and
cannot wrap within a run.  The `defer cancel()` of line 43 only runs when `Run`
returns and nothing reads the context afterwards, so it has no transition.
-/

namespace LoadLoop

/-- The `Config` struct, lines 16-21. `Duration` is a `time.Duration`
(nanoseconds), `Concurrent` a Go `int`. -/
structure Config where
  DSN : String
  Query : String
  Duration : Int
  Concurrent : Int
  deriving DecidableEq, Repr

/-- The `Benchmark` struct, lines 23-26. The `db` handle is only used by
`executeQuery`, whose outcome is supplied by the environment (see `Event.task`). -/
structure Benchmark where
  config : Config
  deriving DecidableEq, Repr

/-- Modelled from the spec: the permit pool `semaphore.Weighted` of
`golang.org/x/sync/semaphore`, which is not under `src/`; spec section 4.1 gives
its contract (fixed capacity, `acquire` grants a permit only when one is free,
`release` returns one). `size` is the capacity, `cur` the permits held. -/
structure Weighted where
  size : Int
  cur : Int
  deriving DecidableEq, Repr

/-- The call `semaphore.NewWeighted(n)` of line 38. -/
def NewWeighted (n : Int) : Weighted := { size := n, cur := 0 }

/-- Modelled from the spec: the granting path of `sem.Acquire(ctx, 1)`; `none`
when no permit is free (the caller stays blocked). -/
def Weighted.Acquire (s : Weighted) : Option Weighted :=
  if s.size - s.cur ≥ 1 then some { s with cur := s.cur + 1 } else none

/-- Modelled from the spec: `sem.Release(1)`; `none` is the panic of the library
when more is released than is held. -/
def Weighted.Release (s : Weighted) : Option Weighted :=
  if s.cur - 1 < 0 then none else some { s with cur := s.cur - 1 }

/-- The value printed as `RPS`: the float64 quotient of line 74, kept exact.
A zero divisor gives the IEEE results `NaN` (0/0) and `+Inf` (n/0). -/
inductive Throughput where
  | nan
  | posInf
  | val (q : ℚ)
  deriving DecidableEq

/-- Line 74, `float64(reqCount) / elapsed.Seconds()`, with `elapsed` in
nanoseconds. There is no test of the divisor in the source. -/
def rps (reqCount : Nat) (elapsed : Nat) : Throughput :=
  if elapsed = 0 then (if reqCount = 0 then .nan else .posInf)
  else .val ((reqCount : ℚ) * 1000000000 / (elapsed : ℚ))

/-- The three values printed by lines 75-77. -/
structure Report where
  total : Nat
  elapsed : Nat
  throughput : Throughput
  deriving DecidableEq

/-- Program points of the dispatching goroutine (the body of `Run`). -/
inductive LoopPc where
  /-- line 46-49: `select` on `ctx.Done()` with a `default` branch -/
  | clockCheck
  /-- line 50: `sem.Acquire(ctx, 1)` -/
  | acquire
  /-- line 54: `wg.Add(1)` -/
  | wgAdd
  /-- line 55: the `go` statement -/
  | spawn
  /-- line 67: `if ctx.Err() != nil` -/
  | errCheck
  /-- line 72: `wg.Wait()` -/
  | wgWait
  /-- lines 73-77: read the clock and the counter, print -/
  | report
  /-- `Run` has returned (line 48, line 51 or line 78) -/
  | returned
  deriving DecidableEq, Repr

/-- Program points of a spawned task (lines 55-65). The two deferred calls run
in reverse order of their `defer`: `sem.Release(1)` first, then `wg.Done()`. -/
inductive TaskPc where
  /-- line 59: `b.executeQuery()` -/
  | exec
  /-- line 64: `atomic.AddInt64(&reqCount, 1)` -/
  | incr
  /-- line 57, deferred: `sem.Release(1)` -/
  | release
  /-- line 56, deferred: `wg.Done()` -/
  | wgDone
  /-- the goroutine has ended -/
  | finished
  deriving DecidableEq, Repr

/-- One spawned goroutine: its program point and its local `err != nil`. -/
structure Task where
  pc : TaskPc
  failed : Bool
  deriving DecidableEq, Repr

/-- The state of one call of `Run`. The last six fields are history counters,
not program variables: they record what has happened so far. -/
structure State where
  pc : LoopPc
  /-- nanoseconds since `start` (line 40) -/
  now : Nat
  /-- `ctx` is done -/
  fired : Bool
  sem : Weighted
  /-- counter of the `sync.WaitGroup` -/
  wg : Int
  reqCount : Nat
  tasks : List Task
  /-- what lines 75-77 printed, if they ran -/
  report : Option Report
  /-- a library panic ended the process -/
  crashed : Bool
  acquires : Nat
  releases : Nat
  /-- calls of `executeQuery` that returned without error -/
  successes : Nat
  /-- calls of `executeQuery` that returned an error -/
  failures : Nat
  /-- permits granted while `ctx` was already done -/
  lateGrants : Nat
  /-- tasks spawned while `ctx` was already done -/
  lateSpawns : Nat
  deriving DecidableEq

/-- What can happen next. -/
inductive Event where
  /-- the clock advances by `dt` nanoseconds -/
  | advance (dt : Nat)
  /-- the timer of `context.WithTimeout` fires: `ctx` becomes done -/
  | deadline
  /-- the dispatching goroutine executes its next statement; at line 50 this is
  `sem.Acquire` returning `nil` -/
  | loop
  /-- line 50-51: `sem.Acquire` returns `ctx.Err()` -/
  | acquireErr
  /-- task `i` executes its next statement; at line 59 `ok` tells whether
  `executeQuery` returns without error -/
  | task (i : Nat) (ok : Bool)
  deriving DecidableEq, Repr

namespace Benchmark

/-- Lines 37-43: the state in which the `for` loop is entered. A context made
with a duration that is not positive is done from the start. -/
def init (b : Benchmark) : State :=
  { pc := .clockCheck, now := 0, fired := decide (b.config.Duration ≤ 0),
    sem := NewWeighted b.config.Concurrent, wg := 0, reqCount := 0, tasks := [],
    report := none, crashed := false, acquires := 0, releases := 0,
    successes := 0, failures := 0, lateGrants := 0, lateSpawns := 0 }

/-- One statement of the dispatching goroutine, lines 45-78. -/
def loopStep (s : State) : Option State :=
  match s.pc with
  | .clockCheck =>
    if s.fired then some { s with pc := .returned }
    else some { s with pc := .acquire }
  | .acquire =>
    match s.sem.Acquire with
    | none => none
    | some sem =>
      some { s with pc := .wgAdd, sem := sem, acquires := s.acquires + 1,
                    lateGrants := s.lateGrants + (if s.fired then 1 else 0) }
  | .wgAdd => some { s with pc := .spawn, wg := s.wg + 1 }
  | .spawn =>
    some { s with pc := .errCheck,
                  tasks := s.tasks ++ [{ pc := .exec, failed := false }],
                  lateSpawns := s.lateSpawns + (if s.fired then 1 else 0) }
  | .errCheck =>
    if s.fired then some { s with pc := .wgWait }
    else some { s with pc := .clockCheck }
  | .wgWait => if s.wg = 0 then some { s with pc := .report } else none
  | .report =>
    some { s with pc := .returned,
                  report := some { total := s.reqCount, elapsed := s.now,
                                   throughput := rps s.reqCount s.now } }
  | .returned => none

/-- One statement of task `i`, lines 55-65. -/
def taskStep (s : State) (i : Nat) (ok : Bool) : Option State :=
  match s.tasks[i]? with
  | none => none
  | some t =>
    match t.pc with
    | .exec =>
      if ok then
        some { s with tasks := s.tasks.set i { t with pc := .incr },
                      successes := s.successes + 1 }
      else
        some { s with tasks := s.tasks.set i { pc := .release, failed := true },
                      failures := s.failures + 1 }
    | .incr =>
      some { s with tasks := s.tasks.set i { t with pc := .release },
                    reqCount := s.reqCount + 1 }
    | .release =>
      match s.sem.Release with
      | none => some { s with crashed := true }
      | some sem =>
        some { s with tasks := s.tasks.set i { t with pc := .wgDone },
                      sem := sem, releases := s.releases + 1 }
    | .wgDone =>
      if s.wg - 1 < 0 then some { s with crashed := true }
      else some { s with tasks := s.tasks.set i { t with pc := .finished },
                         wg := s.wg - 1 }
    | .finished => none

/-- The transition function: `none` when the event is not enabled. The timer
fires no earlier than `Duration` after `start`. -/
def step (b : Benchmark) (e : Event) (s : State) : Option State :=
  if s.crashed then none
  else
    match e with
    | .advance dt => some { s with now := s.now + dt }
    | .deadline =>
      if s.fired = false ∧ b.config.Duration ≤ (s.now : Int) then
        some { s with fired := true }
      else none
    | .loop => loopStep s
    | .acquireErr =>
      if s.pc = .acquire ∧ s.fired = true then some { s with pc := .returned }
      else none
    | .task i ok => taskStep s i ok

/-- Run a schedule from a state; an event that is not enabled is skipped. -/
def runFrom (b : Benchmark) (s : State) (es : List Event) : State :=
  es.foldl (fun s e => (step b e s).getD s) s

/-- The method `Run`: the state reached from the start under schedule `es`. -/
def Run (b : Benchmark) (es : List Event) : State :=
  runFrom b (init b) es

end Benchmark

/-- Tasks that have not ended (the in-flight set). -/
def inFlight (ts : List Task) : Nat := ts.countP (fun t => t.pc != .finished)

/-- Tasks that still hold their permit. -/
def holding (ts : List Task) : Nat :=
  ts.countP (fun t => t.pc == .exec || t.pc == .incr || t.pc == .release)

/-- Tasks whose query succeeded and whose increment is still to come. -/
def pendingIncr (ts : List Task) : Nat := ts.countP (fun t => t.pc == .incr)

/-- Permits acquired and not yet released. -/
def outstanding (s : State) : Int := (s.acquires : Int) - (s.releases : Int)

/-- A benchmark with the given duration and ceiling. -/
def mkBench (d c : Int) : Benchmark :=
  { config := { DSN := "", Query := "", Duration := d, Concurrent := c } }

/-- The invariant of `Run`. -/
structure RunInv (b : Benchmark) (s : State) : Prop where
  size : s.sem.size = b.config.Concurrent
  ncr : s.crashed = false
  cur : s.sem.cur = (holding s.tasks : Int) + (if s.pc = .wgAdd ∨ s.pc = .spawn then 1 else 0)
  wg : s.wg = (inFlight s.tasks : Int) + (if s.pc = .spawn then 1 else 0)
  bal : (s.acquires : Int) = (s.releases : Int) + s.sem.cur
  cap : s.sem.cur = 0 ∨ s.sem.cur ≤ b.config.Concurrent
  cnt : s.reqCount + pendingIncr s.tasks = s.successes
  joined : s.pc = .report → inFlight s.tasks = 0
  rep : ∀ r, s.report = some r →
    s.pc = .returned ∧ inFlight s.tasks = 0 ∧ r.total = s.successes ∧
    r.throughput = rps r.total r.elapsed ∧ b.config.Duration ≤ (r.elapsed : Int) ∧
    1 ≤ s.tasks.length
  time : s.fired = true → b.config.Duration ≤ (s.now : Int)
  zeroD : b.config.Duration ≤ 0 →
    s.fired = true ∧ (s.pc = .clockCheck ∨ s.pc = .returned) ∧ s.tasks = [] ∧ s.report = none
  zeroC : b.config.Concurrent ≤ 0 →
    (s.pc = .clockCheck ∨ s.pc = .acquire ∨ s.pc = .returned) ∧ s.tasks = [] ∧ s.report = none
  some1 : s.pc = .errCheck ∨ s.pc = .wgWait ∨ s.pc = .report → 1 ≤ s.tasks.length
  drain : s.pc = .wgWait ∨ s.pc = .report → s.fired = true
  late0 : s.fired = false ∨ s.pc = .clockCheck ∨ s.pc = .acquire →
    s.lateGrants = 0 ∧ s.lateSpawns = 0
  late1 : s.pc = .wgAdd ∨ s.pc = .spawn → s.lateSpawns = 0
  late : s.lateGrants ≤ 1 ∧ s.lateSpawns ≤ 1

/-- The invariant of the spawned tasks: a task whose query failed never reaches
the increment, and every task past line 59 was counted once. -/
structure TaskInv (s : State) : Prop where
  fail : ∀ t ∈ s.tasks, t.failed = true → t.pc ≠ .exec ∧ t.pc ≠ .incr
  hist : s.successes + s.failures + s.tasks.countP (fun t => t.pc == .exec) = s.tasks.length

/-- The phase `DONE` of the dispatch loop: `wg.Wait()` has returned. -/
def State.done (s : State) : Prop := s.pc = .report ∨ s.report.isSome = true

/-! ## Schedules used as concrete inputs -/

/-- One operation is admitted, the deadline (1000 ns) fires while it is being
spawned, the query succeeds, the loop drains and reports. -/
def scheduleOk : List Event :=
  [.loop, .loop, .loop, .loop, .advance 1000, .deadline, .loop,
   .task 0 true, .task 0 true, .task 0 true, .task 0 true, .loop, .loop]

/-- As `scheduleOk`, with a failing query. -/
def scheduleFail : List Event :=
  [.loop, .loop, .loop, .loop, .advance 1000, .deadline, .loop,
   .task 0 false, .task 0 false, .task 0 false, .loop, .loop]

/-- One operation is admitted and still running when the deadline fires; the
loop is back at line 46. -/
def scheduleLate : List Event :=
  [.loop, .loop, .loop, .loop, .loop, .advance 1000, .deadline, .loop]

/-- One operation holds the only permit; the loop is blocked in line 50 when the
deadline fires. -/
def scheduleBlocked : List Event :=
  [.loop, .loop, .loop, .loop, .loop, .loop, .advance 1000, .deadline, .acquireErr]

/-- The deadline fires between the grant of line 50 and the `go` of line 55. -/
def scheduleRace : List Event :=
  [.loop, .loop, .advance 1000, .deadline, .loop]

/-- What a step of task `i` must leave alone when the task's query failed: the
completion counter, the count of successes, the program point of the dispatch
loop, the context, the clock, the report, the count of acquires, the capacity of
the semaphore and every other task; and the process has not panicked. -/
def frameExcept (i : Nat) (s s' : State) : Prop :=
  s'.reqCount = s.reqCount ∧ s'.successes = s.successes ∧ s'.pc = s.pc ∧
  s'.fired = s.fired ∧ s'.now = s.now ∧ s'.report = s.report ∧
  s'.crashed = false ∧ s'.acquires = s.acquires ∧ s'.sem.size = s.sem.size ∧
  ∀ j, j ≠ i → s'.tasks[j]? = s.tasks[j]?

/-- Two operations are admitted under ceiling 2, the first query has succeeded,
the second is about to return; the loop is blocked at line 50. -/
def scheduleTwo : List Event :=
  [.loop, .loop, .loop, .loop, .loop, .loop, .loop, .loop, .loop, .loop, .loop,
   .task 0 true]

end LoadLoop

open LoadLoop LoadLoop.Benchmark

/-! ## Counting tasks -/

theorem countP_set_task (p : Task → Bool) (l : List Task) (i : Nat) (t u : Task)
    (h : l[i]? = some t) :
    (l.set i u).countP p + (if p t then 1 else 0)
      = l.countP p + (if p u then 1 else 0) := by
  induction l generalizing i with
  | nil => simp at h
  | cons a l ih =>
    cases i with
    | zero =>
      simp at h
      subst h
      simp [List.countP_cons]
      omega
    | succ j =>
      simp at h
      have := ih j h
      simp [List.countP_cons]
      omega

theorem countP_pos_task (p : Task → Bool) (l : List Task) (i : Nat) (t : Task)
    (h : l[i]? = some t) (hp : p t = true) : 1 ≤ l.countP p := by
  have hm : t ∈ l := List.getElem?_mem h
  exact List.countP_pos_iff.mpr ⟨t, hm, hp⟩

theorem length_pos_task (l : List Task) (i : Nat) (t : Task)
    (h : l[i]? = some t) : 1 ≤ l.length := by
  cases l with
  | nil => simp at h
  | cons a l => simp

theorem inv_init (b : Benchmark) : RunInv b b.init := by
  constructor <;> simp [init, NewWeighted, holding, inFlight, pendingIncr]

theorem inv_advance (b : Benchmark) (s : State) (dt : Nat) (h : RunInv b s) :
    RunInv b { s with now := s.now + dt } := by
  obtain ⟨h1, h2, h3, h4, h5, h6, h7, h8, h9, h10, h11, h12, h13, h14, h15, h16, h17⟩ := h
  constructor <;> simp_all
  intro hf; have := h10 hf; omega

theorem inv_deadline (b : Benchmark) (s : State) (h : RunInv b s)
    (hf : s.fired = false) (hd : b.config.Duration ≤ (s.now : Int)) :
    RunInv b { s with fired := true } := by
  obtain ⟨h1, h2, h3, h4, h5, h6, h7, h8, h9, h10, h11, h12, h13, h14, h15, h16, h17⟩ := h
  constructor <;> simp_all

theorem inv_acquireErr (b : Benchmark) (s : State) (h : RunInv b s)
    (hp : s.pc = .acquire) (hf : s.fired = true) :
    RunInv b { s with pc := .returned } := by
  obtain ⟨h1, h2, h3, h4, h5, h6, h7, h8, h9, h10, h11, h12, h13, h14, h15, h16, h17⟩ := h
  constructor <;> simp_all

theorem pendingIncr_le_inFlight (ts : List Task) : pendingIncr ts ≤ inFlight ts := by
  unfold pendingIncr inFlight
  apply List.countP_mono_left
  intro t _ ht
  cases t with
  | mk pc f => cases pc <;> simp_all

theorem holding_le_inFlight (ts : List Task) : holding ts ≤ inFlight ts := by
  unfold holding inFlight
  apply List.countP_mono_left
  intro t _ ht
  cases t with
  | mk pc f => cases pc <;> simp_all

set_option maxHeartbeats 1000000 in
theorem inv_task (b : Benchmark) (s s' : State) (i : Nat) (ok : Bool) (h : RunInv b s)
    (hs : taskStep s i ok = some s') : RunInv b s' := by
  obtain ⟨h1, h2, h3, h4, h5, h6, h7, h8, h9, h10, h11, h12, h13, h14, h15, h16, h17⟩ := h
  rcases s with ⟨pc, now, fired, ⟨size, cur⟩, wg, reqCount, tasks, report, crashed,
    acquires, releases, successes, failures, lateGrants, lateSpawns⟩
  simp only at h1 h2 h3 h4 h5 h6 h7 h8 h9 h10 h11 h12 h13 h14 h15 h16 h17
  simp only [taskStep] at hs
  cases ht : tasks[i]? with
  | none => simp [ht] at hs
  | some t =>
    simp only [ht] at hs
    have hlen := length_pos_task tasks i t ht
    have hne : tasks ≠ [] := by intro h0; subst h0; simp at ht
    have c1 := fun u => countP_set_task (fun t => t.pc != .finished) tasks i t u ht
    have c2 := fun u => countP_set_task
      (fun t => t.pc == .exec || t.pc == .incr || t.pc == .release) tasks i t u ht
    have c3 := fun u => countP_set_task (fun t => t.pc == .incr) tasks i t u ht
    rcases t with ⟨tpc, tf⟩
    cases tpc <;> simp only [Weighted.Release] at hs
    · -- exec
      cases ok <;> simp only [Bool.false_eq_true, if_false, if_true, Option.some.injEq] at hs <;> subst hs
      · have e1 := c1 ⟨.release, true⟩
        have e2 := c2 ⟨.release, true⟩
        have e3 := c3 ⟨.release, true⟩
        have hposF := countP_pos_task (fun t => t.pc != .finished) tasks i _ ht (by simp)
        simp at e1 e2 e3
        clear c1 c2 c3
        constructor <;> simp only [holding, inFlight, pendingIncr, List.length_set] at * <;>
        first
          | assumption
          | omega
          | (simp_all; done)
          | (simp_all; omega)
          | (intro r hr; have h9r := h9 r hr; omega)
          | (intro hp; have h8p := h8 hp; omega)
      · have e1 := c1 ⟨.incr, tf⟩
        have e2 := c2 ⟨.incr, tf⟩
        have e3 := c3 ⟨.incr, tf⟩
        have hposF := countP_pos_task (fun t => t.pc != .finished) tasks i _ ht (by simp)
        simp at e1 e2 e3
        clear c1 c2 c3
        constructor <;> simp only [holding, inFlight, pendingIncr, List.length_set] at * <;>
        first
          | assumption
          | omega
          | (simp_all; done)
          | (simp_all; omega)
          | (intro r hr; have h9r := h9 r hr; omega)
          | (intro hp; have h8p := h8 hp; omega)
    · -- incr
      simp only [Option.some.injEq] at hs; subst hs
      · have e1 := c1 ⟨.release, tf⟩
        have e2 := c2 ⟨.release, tf⟩
        have e3 := c3 ⟨.release, tf⟩
        have hposF := countP_pos_task (fun t => t.pc != .finished) tasks i _ ht (by simp)
        simp at e1 e2 e3
        clear c1 c2 c3
        constructor <;> simp only [holding, inFlight, pendingIncr, List.length_set] at * <;>
        first
          | assumption
          | omega
          | (simp_all; done)
          | (simp_all; omega)
          | (intro r hr; have h9r := h9 r hr; omega)
          | (intro hp; have h8p := h8 hp; omega)
    · -- release
      have hpos := countP_pos_task
        (fun t => t.pc == .exec || t.pc == .incr || t.pc == .release) tasks i _ ht (by simp)
      have hite : (0 : Int) ≤ (if pc = .wgAdd ∨ pc = .spawn then 1 else 0) := by
        split <;> omega
      have hc : ¬ (cur - 1 < 0) := by simp only [holding] at h3; omega
      simp only [hc, if_false, Option.some.injEq] at hs; subst hs
      · have e1 := c1 ⟨.wgDone, tf⟩
        have e2 := c2 ⟨.wgDone, tf⟩
        have e3 := c3 ⟨.wgDone, tf⟩
        have hposF := countP_pos_task (fun t => t.pc != .finished) tasks i _ ht (by simp)
        simp at e1 e2 e3
        clear c1 c2 c3
        constructor <;> simp only [holding, inFlight, pendingIncr, List.length_set] at * <;>
        first
          | assumption
          | omega
          | (simp_all; done)
          | (simp_all; omega)
          | (intro r hr; have h9r := h9 r hr; omega)
          | (intro hp; have h8p := h8 hp; omega)
    · -- wgDone
      have hpos := countP_pos_task (fun t => t.pc != .finished) tasks i _ ht (by simp)
      have hite : (0 : Int) ≤ (if pc = .spawn then 1 else 0) := by
        split <;> omega
      have hc : ¬ (wg - 1 < 0) := by simp only [inFlight] at h4; omega
      simp only [hc, if_false, Option.some.injEq] at hs; subst hs
      · have e1 := c1 ⟨.finished, tf⟩
        have e2 := c2 ⟨.finished, tf⟩
        have e3 := c3 ⟨.finished, tf⟩
        have hposF := countP_pos_task (fun t => t.pc != .finished) tasks i _ ht (by simp)
        simp at e1 e2 e3
        clear c1 c2 c3
        constructor <;> simp only [holding, inFlight, pendingIncr, List.length_set] at * <;>
        first
          | assumption
          | omega
          | (simp_all; done)
          | (simp_all; omega)
          | (intro r hr; have h9r := h9 r hr; omega)
          | (intro hp; have h8p := h8 hp; omega)
    · simp at hs

set_option maxHeartbeats 1000000 in
theorem inv_loop (b : Benchmark) (s s' : State) (h : RunInv b s)
    (hs : loopStep s = some s') : RunInv b s' := by
  obtain ⟨h1, h2, h3, h4, h5, h6, h7, h8, h9, h10, h11, h12, h13, h14, h15, h16, h17⟩ := h
  rcases s with ⟨pc, now, fired, ⟨size, cur⟩, wg, reqCount, tasks, report, crashed,
    acquires, releases, successes, failures, lateGrants, lateSpawns⟩
  simp only at h1 h2 h3 h4 h5 h6 h7 h8 h9 h10 h11 h12 h13 h14 h15 h16 h17
  have hpi := pendingIncr_le_inFlight tasks
  cases pc <;> cases fired <;>
    simp only [loopStep, Weighted.Acquire, Bool.false_eq_true, if_false, if_true, Option.some.injEq,
      reduceCtorEq] at hs <;>
    simp only [reduceCtorEq, or_self, if_false, if_true, false_or, or_false, false_implies, true_or, or_true,
      true_implies, false_and, imp_false, true_and, and_true, Bool.false_eq_true, add_zero,
      not_false_eq_true, implies_true] at h3 h4 h8 h9 h11 h12 h13 h14 h15 h16 h10
  all_goals try (split at hs)
  all_goals try (rename_i x sem heq; split at heq <;>
    simp only [Option.some.injEq, reduceCtorEq] at heq; subst heq)
  all_goals try (simp only [Option.some.injEq, reduceCtorEq] at hs)
  all_goals try (subst hs)
  all_goals
    constructor <;>
    simp only [reduceCtorEq, or_self, if_false, if_true, false_or, or_false, false_implies, true_or, or_true,
      true_implies, false_and, imp_false, true_and, and_true, Bool.false_eq_true, add_zero,
      not_false_eq_true, implies_true, holding, inFlight, pendingIncr, List.countP_append, List.countP_cons, List.countP_nil,
      List.length_append, List.length_cons, List.length_nil] at * <;>
    first
      | assumption
      | omega
      | (simp_all; done)
      | (simp_all; omega)
      | (intro r hr; simp only [Option.some.injEq] at hr; subst hr; simp only
         refine ⟨?_, ?_, ?_, ?_, ?_⟩ <;> first | assumption | rfl | omega)

theorem inv_step (b : Benchmark) (e : Event) (s s' : State) (h : RunInv b s)
    (hs : step b e s = some s') : RunInv b s' := by
  unfold step at hs
  split at hs
  · simp at hs
  · cases e with
    | advance dt =>
      simp only [Option.some.injEq] at hs
      subst hs
      exact inv_advance b s dt h
    | deadline =>
      simp only at hs
      split at hs
      · rename_i hc
        simp only [Option.some.injEq] at hs
        subst hs
        exact inv_deadline b s h hc.1 hc.2
      · simp at hs
    | loop => exact inv_loop b s s' h hs
    | acquireErr =>
      simp only at hs
      split at hs
      · rename_i hc
        simp only [Option.some.injEq] at hs
        subst hs
        exact inv_acquireErr b s h hc.1 hc.2
      · simp at hs
    | task i ok => exact inv_task b s s' i ok h hs

theorem inv_runFrom (b : Benchmark) (es : List Event) (s : State) (h : RunInv b s) :
    RunInv b (runFrom b s es) := by
  induction es generalizing s with
  | nil => exact h
  | cons e es ih =>
    simp only [runFrom, List.foldl_cons]
    cases hs : step b e s with
    | none => exact ih s h
    | some s' => exact ih s' (inv_step b e s s' h hs)

theorem inv_Run (b : Benchmark) (es : List Event) : RunInv b (Run b es) :=
  inv_runFrom b es b.init (inv_init b)

theorem runFrom_append (b : Benchmark) (s : State) (es fs : List Event) :
    runFrom b s (es ++ fs) = runFrom b (runFrom b s es) fs := by
  simp [runFrom, List.foldl_append]

theorem Run_append (b : Benchmark) (es fs : List Event) :
    Run b (es ++ fs) = runFrom b (Run b es) fs := by
  simp [Run, runFrom_append]

/-! ## The task invariant -/

theorem taskInv_init (b : Benchmark) : TaskInv b.init := by
  constructor <;> simp [init]

theorem taskInv_loop (s s' : State) (h : TaskInv s) (hs : loopStep s = some s') :
    TaskInv s' := by
  obtain ⟨h1, h2⟩ := h
  unfold loopStep at hs
  split at hs
  · split at hs <;> (simp only [Option.some.injEq] at hs; subst hs; exact ⟨h1, h2⟩)
  · split at hs
    · simp at hs
    · simp only [Option.some.injEq] at hs; subst hs; exact ⟨h1, h2⟩
  · simp only [Option.some.injEq] at hs; subst hs; exact ⟨h1, h2⟩
  · simp only [Option.some.injEq] at hs; subst hs
    constructor
    · intro t ht hf
      simp only [List.mem_append, List.mem_singleton] at ht
      rcases ht with ht | ht
      · exact h1 t ht hf
      · subst ht; simp at hf
    · simp only [List.countP_append, List.length_append, List.countP_cons, List.countP_nil,
        List.length_cons, List.length_nil]
      simp
      omega
  · split at hs <;> (simp only [Option.some.injEq] at hs; subst hs; exact ⟨h1, h2⟩)
  · split at hs
    · simp only [Option.some.injEq] at hs; subst hs; exact ⟨h1, h2⟩
    · simp at hs
  · simp only [Option.some.injEq] at hs; subst hs; exact ⟨h1, h2⟩
  · simp at hs

theorem taskInv_task (s s' : State) (i : Nat) (ok : Bool) (h : TaskInv s)
    (hs : taskStep s i ok = some s') : TaskInv s' := by
  obtain ⟨h1, h2⟩ := h
  simp only [taskStep] at hs
  cases ht : s.tasks[i]? with
  | none => simp [ht] at hs
  | some t =>
    simp only [ht] at hs
    have c := fun u => countP_set_task (fun t => t.pc == .exec) s.tasks i t u ht
    have hm := List.getElem?_mem ht
    have hft := h1 t hm
    have key : ∀ u : Task, (u.failed = true → u.pc ≠ .exec ∧ u.pc ≠ .incr) →
        ∀ x ∈ s.tasks.set i u, x.failed = true → x.pc ≠ .exec ∧ x.pc ≠ .incr := by
      intro u hu x hx
      rcases List.mem_or_eq_of_mem_set hx with hx | hx
      · exact h1 x hx
      · subst hx; exact hu
    rcases t with ⟨tpc, tf⟩
    cases tpc <;> simp only at hs
    · cases ok <;> simp only [Bool.false_eq_true, if_false, if_true, Option.some.injEq] at hs <;>
        subst hs
      · have e := c ⟨.release, true⟩
        simp at e
        exact ⟨key _ (by simp), by simp only [List.length_set]; omega⟩
      · have e := c ⟨.incr, tf⟩
        simp at e
        refine ⟨key _ ?_, by simp only [List.length_set]; omega⟩
        intro hf; exact absurd rfl (hft hf).1
    · simp only [Option.some.injEq] at hs; subst hs
      have e := c ⟨.release, tf⟩
      simp at e
      exact ⟨key _ (by simp), by simp only [List.length_set]; omega⟩
    · split at hs <;> (simp only [Option.some.injEq] at hs; subst hs)
      · exact ⟨h1, h2⟩
      · have e := c ⟨.wgDone, tf⟩
        simp at e
        exact ⟨key _ (by simp), by simp only [List.length_set]; omega⟩
    · split at hs <;> (simp only [Option.some.injEq] at hs; subst hs)
      · exact ⟨h1, h2⟩
      · have e := c ⟨.finished, tf⟩
        simp at e
        exact ⟨key _ (by simp), by simp only [List.length_set]; omega⟩
    · simp at hs

theorem taskInv_step (b : Benchmark) (e : Event) (s s' : State) (h : TaskInv s)
    (hs : step b e s = some s') : TaskInv s' := by
  unfold step at hs
  split at hs
  · simp at hs
  · cases e with
    | advance dt =>
      simp only [Option.some.injEq] at hs
      subst hs
      exact ⟨h.1, h.2⟩
    | deadline =>
      simp only at hs
      split at hs
      · simp only [Option.some.injEq] at hs
        subst hs
        exact ⟨h.1, h.2⟩
      · simp at hs
    | loop => exact taskInv_loop s s' h hs
    | acquireErr =>
      simp only at hs
      split at hs
      · simp only [Option.some.injEq] at hs
        subst hs
        exact ⟨h.1, h.2⟩
      · simp at hs
    | task i ok => exact taskInv_task s s' i ok h hs

theorem taskInv_runFrom (b : Benchmark) (es : List Event) (s : State) (h : TaskInv s) :
    TaskInv (runFrom b s es) := by
  induction es generalizing s with
  | nil => exact h
  | cons e es ih =>
    simp only [runFrom, List.foldl_cons]
    cases hs : step b e s with
    | none => exact ih s h
    | some s' => exact ih s' (taskInv_step b e s s' h hs)

theorem taskInv_Run (b : Benchmark) (es : List Event) : TaskInv (Run b es) :=
  taskInv_runFrom b es b.init (taskInv_init b)

/-! ## Helper facts -/

theorem rps_pos (n e : Nat) (h : 0 < e) :
    rps n e = .val ((n : ℚ) * 1000000000 / (e : ℚ)) := by
  simp only [rps]
  rw [if_neg (by omega)]

theorem all_finished (ts : List Task) (h : inFlight ts = 0) :
    ∀ t ∈ ts, t.pc = .finished := by
  intro t ht
  have h0 := (List.countP_eq_zero.mp h) t ht
  simpa using h0

theorem exec_le_inFlight (ts : List Task) :
    ts.countP (fun t => t.pc == .exec) ≤ inFlight ts := by
  unfold inFlight
  apply List.countP_mono_left
  intro t _ ht
  cases t with
  | mk pc f => cases pc <;> simp_all

theorem done_inFlight (b : Benchmark) (s : State) (h : RunInv b s) (hd : s.done) :
    inFlight s.tasks = 0 ∧ s.sem.cur = 0 := by
  have hh := holding_le_inFlight s.tasks
  have hc := h.cur
  rcases hd with hd | hd
  · have h0 := h.joined hd
    rw [hd] at hc
    simp only [reduceCtorEq, or_self, if_false] at hc
    omega
  · cases hr : s.report with
    | none => rw [hr] at hd; simp at hd
    | some r =>
      obtain ⟨hp, h0, -⟩ := h.rep r hr
      rw [hp] at hc
      simp only [reduceCtorEq, or_self, if_false] at hc
      omega

theorem step_past_dispatch (b : Benchmark) (e : Event) (s s' : State)
    (hs : step b e s = some s')
    (hp : s.pc = .wgWait ∨ s.pc = .report ∨ s.pc = .returned) :
    (s'.pc = .wgWait ∨ s'.pc = .report ∨ s'.pc = .returned) ∧
    s'.acquires = s.acquires ∧ s'.tasks.length = s.tasks.length ∧
    (s.pc = .returned → s'.pc = .returned ∧ s'.report = s.report) := by
  unfold step at hs
  split at hs
  · simp at hs
  · cases e with
    | advance dt =>
      simp only [Option.some.injEq] at hs; subst hs
      exact ⟨hp, rfl, rfl, fun h => ⟨h, rfl⟩⟩
    | deadline =>
      simp only at hs
      split at hs
      · simp only [Option.some.injEq] at hs; subst hs
        exact ⟨hp, rfl, rfl, fun h => ⟨h, rfl⟩⟩
      · simp at hs
    | acquireErr =>
      simp only at hs
      split at hs
      · rename_i hc
        rcases hp with hp | hp | hp <;> rw [hp] at hc <;> simp at hc
      · simp at hs
    | loop =>
      simp only [loopStep] at hs
      rcases hp with hp | hp | hp <;> rw [hp] at hs <;> simp only at hs
      · split at hs
        · simp only [Option.some.injEq] at hs; subst hs
          simp [hp]
        · simp at hs
      · simp only [Option.some.injEq] at hs; subst hs
        simp [hp]
      · simp at hs
    | task i ok =>
      simp only [taskStep] at hs
      split at hs
      · simp at hs
      · split at hs
        · split at hs <;> (simp only [Option.some.injEq] at hs; subst hs) <;>
            exact ⟨hp, rfl, by simp, fun h => ⟨h, rfl⟩⟩
        · simp only [Option.some.injEq] at hs; subst hs
          exact ⟨hp, rfl, by simp, fun h => ⟨h, rfl⟩⟩
        · split at hs <;> (simp only [Option.some.injEq] at hs; subst hs) <;>
            exact ⟨hp, rfl, by simp, fun h => ⟨h, rfl⟩⟩
        · split at hs <;> (simp only [Option.some.injEq] at hs; subst hs) <;>
            exact ⟨hp, rfl, by simp, fun h => ⟨h, rfl⟩⟩
        · simp at hs

theorem runFrom_past_dispatch (b : Benchmark) (fs : List Event) (s : State)
    (hp : s.pc = .wgWait ∨ s.pc = .report ∨ s.pc = .returned) :
    (runFrom b s fs).acquires = s.acquires ∧
    (runFrom b s fs).tasks.length = s.tasks.length ∧
    (s.pc = .returned →
      (runFrom b s fs).pc = .returned ∧ (runFrom b s fs).report = s.report) := by
  induction fs generalizing s with
  | nil => exact ⟨rfl, rfl, fun h => ⟨h, rfl⟩⟩
  | cons e fs ih =>
    simp only [runFrom, List.foldl_cons]
    cases hs : step b e s with
    | none => exact ih s hp
    | some s' =>
      obtain ⟨hp', ha, hl, hr⟩ := step_past_dispatch b e s s' hs hp
      obtain ⟨ia, il, ir⟩ := ih s' hp'
      simp only [Option.getD_some]
      refine ⟨?_, ?_, ?_⟩
      · exact ia.trans ha
      · exact il.trans hl
      · intro h
        obtain ⟨h1, h2⟩ := hr h
        obtain ⟨h3, h4⟩ := ir h1
        exact ⟨h3, h4.trans h2⟩

theorem rps_one : rps 1 1000 = .val 1000000 := by
  simp only [rps]; norm_num

/-! ## The claims -/

/-- C1: with the configured duration 0 and ceiling 1, `Run` sees the expired
context at its first `select` and returns through line 48: it has returned, it
printed no report, and no later event produces one. -/
theorem Run_zero_duration_returns_without_report :
    (Run (mkBench 0 1) [.loop]).pc = .returned ∧
    (Run (mkBench 0 1) [.loop]).report = none ∧
    ∀ fs, (runFrom (mkBench 0 1) (Run (mkBench 0 1) [.loop]) fs).pc = .returned ∧
      (runFrom (mkBench 0 1) (Run (mkBench 0 1) [.loop]) fs).report = none := by
  refine ⟨rfl, rfl, ?_⟩
  intro fs
  exact (runFrom_past_dispatch (mkBench 0 1) fs _ (Or.inr (Or.inr rfl))).2.2 rfl

/-- C2: `Run` returns with a task still in flight, through line 48 (the deadline
fires while the loop is back at the `select`) and through line 51 (the deadline
fires while `sem.Acquire` is blocked): in both runs `Run` has returned, the
spawned task is still at its query, the wait group is not zero and the permit is
not released. -/
theorem Run_returns_with_task_in_flight :
    ((Run (mkBench 1000 1) scheduleLate).pc = .returned ∧
      (Run (mkBench 1000 1) scheduleLate).tasks = [⟨.exec, false⟩] ∧
      (Run (mkBench 1000 1) scheduleLate).wg = 1 ∧
      (Run (mkBench 1000 1) scheduleLate).sem.cur = 1 ∧
      (Run (mkBench 1000 1) scheduleLate).report = none) ∧
    ((Run (mkBench 1000 1) scheduleBlocked).pc = .returned ∧
      (Run (mkBench 1000 1) scheduleBlocked).tasks = [⟨.exec, false⟩] ∧
      (Run (mkBench 1000 1) scheduleBlocked).wg = 1 ∧
      (Run (mkBench 1000 1) scheduleBlocked).sem.cur = 1 ∧
      (Run (mkBench 1000 1) scheduleBlocked).report = none) := by
  decide

/-- C5 (as stated, refuted): with a configured duration of 1000 ns and ceiling 1,
`Run` reports one operation in 1000 ns and a throughput of 1000000 per second,
not 0; and line 74 has no guard: on a zero divisor the quotient is `+Inf` or
`NaN`, not 0. -/
theorem Run_short_run_throughput_not_zero :
    (Run (mkBench 1000 1) scheduleOk).report = some ⟨1, 1000, .val 1000000⟩ ∧
    Throughput.val 1000000 ≠ .val 0 ∧
    rps 1 0 = .posInf ∧ rps 0 0 = .nan := by
  refine ⟨?_, ?_, rfl, rfl⟩
  · rw [← rps_one]; rfl
  · intro h
    injection h with h
    norm_num at h

/-- C5 (amended): whenever `Run` prints a report, the elapsed time is at least
the configured duration and positive, so the divisor of line 74 is not zero; the
throughput is the plain quotient of the counter by the elapsed seconds, and it
is 0 exactly when the counter is 0. -/
theorem Run_throughput_is_quotient (b : Benchmark) (es : List Event) (r : Report)
    (hr : (Run b es).report = some r) :
    0 < r.elapsed ∧ b.config.Duration ≤ (r.elapsed : Int) ∧
    r.throughput = .val ((r.total : ℚ) * 1000000000 / (r.elapsed : ℚ)) ∧
    (r.throughput = .val 0 ↔ r.total = 0) := by
  have h := inv_Run b es
  obtain ⟨-, -, -, hth, hD, -⟩ := h.rep r hr
  have hpos : 0 < b.config.Duration := by
    by_contra hn
    have := (h.zeroD (by omega)).2.2.2
    rw [this] at hr
    simp at hr
  have he : 0 < r.elapsed := by omega
  have hq := rps_pos r.total r.elapsed he
  refine ⟨he, hD, hth.trans hq, ?_⟩
  rw [hth, hq]
  have he' : (r.elapsed : ℚ) ≠ 0 := by exact_mod_cast (Nat.pos_iff_ne_zero.mp he)
  constructor
  · intro hv
    injection hv with hv
    rw [div_eq_zero_iff] at hv
    rcases hv with hv | hv
    · have : (r.total : ℚ) = 0 := by
        rcases mul_eq_zero.mp hv with h1 | h1
        · exact h1
        · norm_num at h1
      exact_mod_cast this
    · exact absurd hv he'
  · intro h0
    rw [h0]
    simp

/-- C5 (amended), at a concrete run: one failing operation, a report after 1000 ns
with throughput 0. -/
theorem Run_throughput_is_quotient_witness :
    (Run (mkBench 1000 1) scheduleFail).report = some ⟨0, 1000, rps 0 1000⟩ ∧
    (0 < 1000 ∧ (mkBench 1000 1).config.Duration ≤ ((1000 : Nat) : Int) ∧
     rps 0 1000 = .val (((0 : Nat) : ℚ) * 1000000000 / ((1000 : Nat) : ℚ)) ∧
     (rps 0 1000 = .val 0 ↔ (0 : Nat) = 0)) :=
  ⟨rfl, Run_throughput_is_quotient (mkBench 1000 1) scheduleFail ⟨0, 1000, rps 0 1000⟩ rfl⟩

/-- C3: with a ceiling of at least 1, in every reachable state of `Run` the
permits that are acquired and not yet released, which is the `cur` of the
semaphore, are at most the ceiling (and never negative). -/
theorem Run_permits_le_ceiling (b : Benchmark) (hC : 1 ≤ b.config.Concurrent)
    (es : List Event) :
    outstanding (Run b es) = (Run b es).sem.cur ∧
    0 ≤ outstanding (Run b es) ∧
    outstanding (Run b es) ≤ b.config.Concurrent := by
  have h := inv_Run b es
  have hb := h.bal
  have hc := h.cap
  have hcur := h.cur
  have hite : (0 : Int) ≤ (if (Run b es).pc = .wgAdd ∨ (Run b es).pc = .spawn then 1 else 0) := by
    split <;> omega
  unfold outstanding
  omega

/-- C3 at a concrete run with ceiling 1, in a state that holds the one permit. -/
theorem Run_permits_le_ceiling_witness :
    outstanding (Run (mkBench 1000 1) scheduleRace) = (Run (mkBench 1000 1) scheduleRace).sem.cur ∧
    0 ≤ outstanding (Run (mkBench 1000 1) scheduleRace) ∧
    outstanding (Run (mkBench 1000 1) scheduleRace) ≤ (mkBench 1000 1).config.Concurrent :=
  Run_permits_le_ceiling (mkBench 1000 1) (by decide) scheduleRace

/-- C4: the total that `Run` reports is exactly the number of calls of
`executeQuery` that returned without error; with the failed calls it adds up to
the number of spawned tasks, so N tasks that all succeed give exactly N. -/
theorem Run_total_eq_successes (b : Benchmark) (es : List Event) (r : Report)
    (hr : (Run b es).report = some r) :
    r.total = (Run b es).successes ∧
    r.total + (Run b es).failures = (Run b es).tasks.length ∧
    ((Run b es).failures = 0 → r.total = (Run b es).tasks.length) := by
  have h := inv_Run b es
  have ht := taskInv_Run b es
  obtain ⟨-, h0, htot, -⟩ := h.rep r hr
  have he := exec_le_inFlight (Run b es).tasks
  have hh := ht.hist
  omega

/-- C4 at a concrete run: one task, one success, a reported total of 1. -/
theorem Run_total_eq_successes_witness :
    (1 : Nat) = (Run (mkBench 1000 1) scheduleOk).successes ∧
    1 + (Run (mkBench 1000 1) scheduleOk).failures = (Run (mkBench 1000 1) scheduleOk).tasks.length ∧
    ((Run (mkBench 1000 1) scheduleOk).failures = 0 →
      1 = (Run (mkBench 1000 1) scheduleOk).tasks.length) :=
  Run_total_eq_successes (mkBench 1000 1) scheduleOk ⟨1, 1000, rps 1 1000⟩ rfl

/-- C6: in every reachable state no more permits were released than acquired and
no release panicked; once `Run` is in `DONE` (`wg.Wait()` has returned) the
acquires equal the releases and the semaphore holds nothing, whatever the
queries returned. -/
theorem Run_permits_balanced (b : Benchmark) (es : List Event) :
    (Run b es).releases ≤ (Run b es).acquires ∧
    (Run b es).crashed = false ∧
    ((Run b es).done →
      (Run b es).acquires = (Run b es).releases ∧ (Run b es).sem.cur = 0) := by
  have h := inv_Run b es
  have hb := h.bal
  have hcur := h.cur
  have hite : (0 : Int) ≤ (if (Run b es).pc = .wgAdd ∨ (Run b es).pc = .spawn then 1 else 0) := by
    split <;> omega
  refine ⟨by omega, h.ncr, ?_⟩
  intro hd
  have h0 := (done_inFlight b _ h hd).2
  exact ⟨by omega, h0⟩

/-- C6 at a concrete run that reaches `DONE` after its only query failed: one
acquire, one release. -/
theorem Run_permits_balanced_witness :
    (Run (mkBench 1000 1) scheduleFail).done ∧
    ((Run (mkBench 1000 1) scheduleFail).acquires = (Run (mkBench 1000 1) scheduleFail).releases ∧
      (Run (mkBench 1000 1) scheduleFail).sem.cur = 0) ∧
    (Run (mkBench 1000 1) scheduleFail).acquires = 1 :=
  ⟨Or.inr rfl, (Run_permits_balanced (mkBench 1000 1) scheduleFail).2.2 (Or.inr rfl), by decide⟩

/-- C7: when `Run` reads the counter and prints (line 73 on), and at any time
after a report was printed, every spawned task has ended. -/
theorem Run_report_after_join (b : Benchmark) (es : List Event)
    (hd : (Run b es).done) :
    ∀ t ∈ (Run b es).tasks, t.pc = .finished :=
  all_finished _ (done_inFlight b _ (inv_Run b es) hd).1

/-- C7 at a concrete run that printed its report. -/
theorem Run_report_after_join_witness :
    (Run (mkBench 1000 1) scheduleOk).done ∧
    (Run (mkBench 1000 1) scheduleOk).tasks = [⟨.finished, false⟩] ∧
    (Task.mk .finished false).pc = .finished :=
  ⟨Or.inr rfl, by decide,
   Run_report_after_join (mkBench 1000 1) scheduleOk (Or.inr rfl) ⟨.finished, false⟩ (by decide)⟩

/-- C10: a report implies that at least one task was spawned, and the join
(line 72) is only reached with a task spawned and the deadline fired; a run with
a duration or a ceiling that is not positive spawns nothing and reports nothing. -/
theorem Run_report_needs_spawn (b : Benchmark) (es : List Event) :
    ((Run b es).report.isSome = true → 1 ≤ (Run b es).tasks.length) ∧
    ((Run b es).pc = .wgWait ∨ (Run b es).pc = .report →
      1 ≤ (Run b es).tasks.length ∧ (Run b es).fired = true) ∧
    (b.config.Duration ≤ 0 → (Run b es).tasks = [] ∧ (Run b es).report = none) ∧
    (b.config.Concurrent ≤ 0 → (Run b es).tasks = [] ∧ (Run b es).report = none) := by
  have h := inv_Run b es
  refine ⟨?_, ?_, ?_, ?_⟩
  · intro hs
    cases hr : (Run b es).report with
    | none => rw [hr] at hs; simp at hs
    | some r => exact (h.rep r hr).2.2.2.2.2
  · intro hp
    exact ⟨h.some1 (Or.inr hp), h.drain hp⟩
  · intro hD
    exact (h.zeroD hD).2.2
  · intro hC
    exact (h.zeroC hC).2

/-- C10 at concrete runs: a report with one task spawned, and no report for
duration 0 or ceiling 0. -/
theorem Run_report_needs_spawn_witness :
    (Run (mkBench 1000 1) scheduleOk).report.isSome = true ∧
    1 ≤ (Run (mkBench 1000 1) scheduleOk).tasks.length ∧
    (Run (mkBench 0 1) [.loop]).report = none ∧
    (Run (mkBench 1000 0) [.loop, .advance 1000, .deadline, .acquireErr]).report = none :=
  ⟨rfl, (Run_report_needs_spawn (mkBench 1000 1) scheduleOk).1 rfl,
   ((Run_report_needs_spawn (mkBench 0 1) [.loop]).2.2.1 (by decide)).2,
   ((Run_report_needs_spawn (mkBench 1000 0) _).2.2.2 (by decide)).2⟩

theorem frameExcept_trans (i : Nat) (s s1 s2 : State)
    (h1 : frameExcept i s s1) (h2 : frameExcept i s1 s2) : frameExcept i s s2 := by
  obtain ⟨a1, a2, a3, a4, a5, a6, _, a8, a9, a10⟩ := h1
  obtain ⟨b1, b2, b3, b4, b5, b6, b7, b8, b9, b10⟩ := h2
  exact ⟨b1.trans a1, b2.trans a2, b3.trans a3, b4.trans a4, b5.trans a5, b6.trans a6,
    b7, b8.trans a8, b9.trans a9, fun j hj => (b10 j hj).trans (a10 j hj)⟩

theorem failed_task_step_enabled (b : Benchmark) (s : State) (h : RunInv b s)
    (hti : TaskInv s) (i : Nat) (ok : Bool) (t : Task)
    (ht : s.tasks[i]? = some t)
    (hf : t.failed = true ∨ (t.pc = .exec ∧ ok = false))
    (hnf : t.pc ≠ .finished) :
    ∃ s', step b (.task i ok) s = some s' ∧ frameExcept i s s' ∧
      (t.pc = .exec → s'.tasks[i]? = some ⟨.release, true⟩ ∧ s'.sem = s.sem ∧
        s'.releases = s.releases ∧ s'.wg = s.wg) ∧
      (t.pc = .release → s'.tasks[i]? = some ⟨.wgDone, true⟩ ∧
        s'.sem.cur = s.sem.cur - 1 ∧ s'.releases = s.releases + 1 ∧ s'.wg = s.wg ∧
        (s'.pc = .acquire → (loopStep s').isSome = true)) ∧
      (t.pc = .wgDone → s'.tasks[i]? = some ⟨.finished, true⟩ ∧ s'.sem = s.sem ∧
        s'.releases = s.releases ∧ s'.wg = s.wg - 1) := by
  have hm := List.getElem?_mem ht
  have hfail := hti.fail t hm
  have hlt : i < s.tasks.length := by
    rcases Nat.lt_or_ge i s.tasks.length with hl | hl
    · exact hl
    · rw [List.getElem?_eq_none hl] at ht; simp at ht
  have hother : ∀ (u : Task) (j : Nat), j ≠ i → (s.tasks.set i u)[j]? = s.tasks[j]? := by
    intro u j hj
    exact List.getElem?_set_ne (Ne.symm hj)
  have hself : ∀ u : Task, (s.tasks.set i u)[i]? = some u := by
    intro u
    exact List.getElem?_set_self hlt
  have hcur := h.cur
  have hwg := h.wg
  have hcap := h.cap
  have hsz := h.size
  have hite1 : (0 : Int) ≤ (if s.pc = .wgAdd ∨ s.pc = .spawn then 1 else 0) := by
    split <;> omega
  have hite2 : (0 : Int) ≤ (if s.pc = .spawn then 1 else 0) := by
    split <;> omega
  have hstep : step b (.task i ok) s = taskStep s i ok := by
    unfold step
    simp [h.ncr]
  rw [hstep]
  rcases t with ⟨tpc, tf⟩
  cases tpc <;> simp only at hf hfail hnf
  · -- line 59, the failing call
    rcases hf with hf | hf
    · exact absurd rfl (hfail hf).1
    · obtain ⟨-, hok⟩ := hf
      subst hok
      refine ⟨_, by simp only [taskStep, ht]; rfl, ?_, ?_, ?_, ?_⟩
      · exact ⟨rfl, rfl, rfl, rfl, rfl, rfl, h.ncr, rfl, rfl, hother _⟩
      · intro _; exact ⟨hself _, rfl, rfl, rfl⟩
      · intro hc; simp at hc
      · intro hc; simp at hc
  · -- line 64 is not reached by a failed task
    rcases hf with hf | hf
    · exact absurd rfl (hfail hf).2
    · simp at hf
  · -- deferred sem.Release(1)
    have hpos := countP_pos_task
      (fun t => t.pc == .exec || t.pc == .incr || t.pc == .release) s.tasks i _ ht (by simp)
    have hc : ¬ (s.sem.cur - 1 < 0) := by simp only [holding] at hcur; omega
    have hf' : tf = true := by simpa using hf
    subst hf'
    refine ⟨_, by simp only [taskStep, ht, Weighted.Release, hc, if_false]; rfl, ?_, ?_, ?_, ?_⟩
    · exact ⟨rfl, rfl, rfl, rfl, rfl, rfl, h.ncr, rfl, rfl, hother _⟩
    · intro hc; simp at hc
    · intro _
      refine ⟨hself _, rfl, rfl, rfl, ?_⟩
      intro hacq
      have hacq' : s.pc = LoopPc.acquire := hacq
      have hge : s.sem.size - (s.sem.cur - 1) ≥ 1 := by omega
      simp only [loopStep, Weighted.Acquire, hacq', if_pos hge, Option.isSome_some]
    · intro hc; simp at hc
  · -- deferred wg.Done()
    have hpos := countP_pos_task (fun t => t.pc != .finished) s.tasks i _ ht (by simp)
    have hc : ¬ (s.wg - 1 < 0) := by simp only [inFlight] at hwg; omega
    have hf' : tf = true := by simpa using hf
    subst hf'
    refine ⟨_, by simp only [taskStep, ht, hc, if_false]; rfl, ?_, ?_, ?_, ?_⟩
    · exact ⟨rfl, rfl, rfl, rfl, rfl, rfl, h.ncr, rfl, rfl, hother _⟩
    · intro hc; simp at hc
    · intro hc; simp at hc
    · intro _; exact ⟨hself _, rfl, rfl, rfl⟩
  · exact absurd rfl hnf

theorem runFrom_single (b : Benchmark) (s s' : State) (e : Event)
    (hs : step b e s = some s') : runFrom b s [e] = s' := by
  simp [runFrom, hs]

/-- C8: in every reachable state, a task whose `executeQuery` returns an error
(the failing call itself, or a later step of that task) can always take its next
step, and that step leaves the completion counter, the count of successes, the
program point of the dispatch loop, the context, the clock, the report and every
other task unchanged and does not panic. The failing call leads to the deferred
`sem.Release(1)`, which lowers the held permits by one, after which a loop
waiting at line 50 can acquire; then `wg.Done()` ends the task. Run from the
failing call to its end, the task has returned its permit and left the wait
group, and nothing else has changed. -/
theorem Run_failed_task_step (b : Benchmark) (es : List Event) (i : Nat) (ok : Bool)
    (t : Task)
    (ht : (Run b es).tasks[i]? = some t)
    (hf : t.failed = true ∨ (t.pc = .exec ∧ ok = false))
    (hnf : t.pc ≠ .finished) :
    (∃ s', step b (.task i ok) (Run b es) = some s' ∧ frameExcept i (Run b es) s' ∧
      (t.pc = .exec → s'.tasks[i]? = some ⟨.release, true⟩ ∧ s'.sem = (Run b es).sem ∧
        s'.releases = (Run b es).releases ∧ s'.wg = (Run b es).wg) ∧
      (t.pc = .release → s'.tasks[i]? = some ⟨.wgDone, true⟩ ∧
        s'.sem.cur = (Run b es).sem.cur - 1 ∧
        s'.releases = (Run b es).releases + 1 ∧ s'.wg = (Run b es).wg ∧
        (s'.pc = .acquire → (loopStep s').isSome = true)) ∧
      (t.pc = .wgDone → s'.tasks[i]? = some ⟨.finished, true⟩ ∧
        s'.sem = (Run b es).sem ∧
        s'.releases = (Run b es).releases ∧ s'.wg = (Run b es).wg - 1)) ∧
    (t.pc = .exec →
      frameExcept i (Run b es)
        (Run b (es ++ [Event.task i ok, Event.task i ok, Event.task i ok])) ∧
      (Run b (es ++ [Event.task i ok, Event.task i ok, Event.task i ok])).tasks[i]?
        = some ⟨.finished, true⟩ ∧
      (Run b (es ++ [Event.task i ok, Event.task i ok, Event.task i ok])).sem.cur
        = (Run b es).sem.cur - 1 ∧
      (Run b (es ++ [Event.task i ok, Event.task i ok, Event.task i ok])).releases
        = (Run b es).releases + 1 ∧
      (Run b (es ++ [Event.task i ok, Event.task i ok, Event.task i ok])).wg
        = (Run b es).wg - 1 ∧
      ((Run b es).pc = .acquire →
        (loopStep (Run b (es ++ [Event.task i ok, Event.task i ok, Event.task i ok]))).isSome
          = true)) := by
  have h0 := failed_task_step_enabled b (Run b es) (inv_Run b es) (taskInv_Run b es)
    i ok t ht hf hnf
  refine ⟨h0, ?_⟩
  intro hexec
  obtain ⟨s1, hs1, hfr1, hx1, -, -⟩ := h0
  obtain ⟨ht1, hsem1, hrel1, hwg1⟩ := hx1 hexec
  have e1 : Run b (es ++ [Event.task i ok]) = s1 := by
    rw [Run_append]; exact runFrom_single b _ _ _ hs1
  have h1 := failed_task_step_enabled b s1 (e1 ▸ inv_Run b _) (e1 ▸ taskInv_Run b _)
    i ok ⟨.release, true⟩ ht1 (Or.inl rfl) (by simp)
  obtain ⟨s2, hs2, hfr2, -, hx2, -⟩ := h1
  obtain ⟨ht2, hcur2, hrel2, hwg2, hacq2⟩ := hx2 rfl
  have e2 : Run b (es ++ [Event.task i ok, Event.task i ok]) = s2 := by
    have : es ++ [Event.task i ok, Event.task i ok]
        = (es ++ [Event.task i ok]) ++ [Event.task i ok] := by simp
    rw [this, Run_append, e1]; exact runFrom_single b _ _ _ hs2
  have h2 := failed_task_step_enabled b s2 (e2 ▸ inv_Run b _) (e2 ▸ taskInv_Run b _)
    i ok ⟨.wgDone, true⟩ ht2 (Or.inl rfl) (by simp)
  obtain ⟨s3, hs3, hfr3, -, -, hx3⟩ := h2
  obtain ⟨ht3, hsem3, hrel3, hwg3⟩ := hx3 rfl
  have e3 : Run b (es ++ [Event.task i ok, Event.task i ok, Event.task i ok]) = s3 := by
    have : es ++ [Event.task i ok, Event.task i ok, Event.task i ok]
        = (es ++ [Event.task i ok, Event.task i ok]) ++ [Event.task i ok] := by simp
    rw [this, Run_append, e2]; exact runFrom_single b _ _ _ hs3
  rw [e3]
  have hfr := frameExcept_trans i _ _ _ (frameExcept_trans i _ _ _ hfr1 hfr2) hfr3
  refine ⟨hfr, ht3, ?_, ?_, ?_, ?_⟩
  · rw [hsem3, hcur2, hsem1]
  · rw [hrel3, hrel2, hrel1]
  · rw [hwg3, hwg2, hwg1]
  · intro hacq
    have hp2 : s2.pc = .acquire := by
      rw [hfr2.2.2.1, hfr1.2.2.1]; exact hacq
    have hl2 := hacq2 hp2
    have hp3 : s3.pc = s2.pc := hfr3.2.2.1
    simp only [loopStep, hp2, hp3, hsem3] at hl2 ⊢
    cases hq : s2.sem.Acquire with
    | none => rw [hq] at hl2; simp at hl2
    | some sem => rfl

/-- C8 at a concrete run with two tasks in flight under ceiling 2: the query of
task 1 fails while the loop is blocked at line 50; the task can step, ends as
finished with its permit returned, the counter is unchanged and the loop can
acquire again. -/
theorem Run_failed_task_step_witness :
    (Run (mkBench 1000 2) scheduleTwo).tasks[1]? = some ⟨.exec, false⟩ ∧
    (Run (mkBench 1000 2) scheduleTwo).pc = .acquire ∧
    (loopStep (Run (mkBench 1000 2) scheduleTwo)).isSome = false ∧
    (Run (mkBench 1000 2)
      (scheduleTwo ++ [Event.task 1 false, Event.task 1 false, Event.task 1 false])).tasks[1]?
        = some ⟨.finished, true⟩ ∧
    (Run (mkBench 1000 2)
      (scheduleTwo ++ [Event.task 1 false, Event.task 1 false, Event.task 1 false])).sem.cur
        = (Run (mkBench 1000 2) scheduleTwo).sem.cur - 1 ∧
    (loopStep (Run (mkBench 1000 2)
      (scheduleTwo ++ [Event.task 1 false, Event.task 1 false, Event.task 1 false]))).isSome
        = true :=
  have h := (Run_failed_task_step (mkBench 1000 2) scheduleTwo 1 false ⟨.exec, false⟩
    (by rfl) (Or.inr ⟨rfl, rfl⟩) (by decide)).2 rfl
  ⟨by rfl, by rfl, by rfl, h.2.1, h.2.2.1, h.2.2.2.2.2 (by rfl)⟩
